import Mathlib

/-!
Preference bindings registry and cloud-provider transition (fyne).

A shallow embedding of `data/binding/pref_helper.go` and of
`fyneApp.transitionCloud` / `fyneApp.Preferences` from `app/app.go`.

Conventions of the embedding.

* A `fyne.Preferences` value is a store instance compared by identity: a `Store` is a
  natural number naming the instance (the nil interface value is no store; the field
  `appPrefs`, which starts out nil, is an `Option Store`).  A `*preferenceBindings` is an
  address `Addr` into the heap of allocated binding sets; the nil pointer is `none`.
  A `preferenceItem` held in a binding set is never nil.
* Go maps are association lists with at most one entry per key; `range` visits the
  entries in list order.
* Calls into code outside these two files (`checkForChange`, `replaceProvider`,
  a listener body, `fyne.LogError`, `settings.apply`) are recorded in the trace of the
  world and change nothing else.  Lock operations and writes of the registry fields are
  recorded in the same trace, in program order.
* A Go run-time panic (nil pointer dereference) is the outcome `Outcome.nilDeref`.
* `getBindings`, `migratePreferences` and `preferencesChanged` are mutually recursive in
  the source; the embedding bounds the depth of that recursion by a number, and the
  results below hold for every bound of at least two.
* The goroutine of `SetCloudProvider` is run to completion: `transitionCloud` is a
  function of the world.
-/

namespace Fyne

/-! ## Go maps -/

/-- Go `m[k]` with the comma-ok result: `none` when the key has no entry. -/
def mapGet {κ ν : Type} [DecidableEq κ] : List (κ × ν) → κ → Option ν
  | [], _ => none
  | (k, v) :: rest, q => if k = q then some v else mapGet rest q

/-- Go `delete(m, k)`. -/
def mapDelete {κ ν : Type} [DecidableEq κ] : List (κ × ν) → κ → List (κ × ν)
  | [], _ => []
  | (k, v) :: rest, q => if k = q then mapDelete rest q else (k, v) :: mapDelete rest q

/-- Go `m[k] = v`. -/
def mapSet {κ ν : Type} [DecidableEq κ] (m : List (κ × ν)) (k : κ) (v : ν) : List (κ × ν) :=
  (k, v) :: mapDelete m k

/-! ## Data model -/

/-- A `fyne.Preferences` instance, by identity. -/
abbrev Store := Nat

/-- The address of an allocated `preferenceBindings`. -/
abbrev Addr := Nat

/-- A `preferenceItem`: the instance `id`, and whether its dynamic type also has the
method `replaceProvider(fyne.Preferences)`. -/
structure preferenceItem where
  id : Nat
  backed : Bool
deriving DecidableEq, Repr

/-- A change listener `func()`: either the closure that `ensurePreferencesAttached`
registers, or a function of the caller, named by a number. -/
inductive Listener where
  | prefsChanged
  | user (id : Nat)
deriving DecidableEq, Repr

/-- A `fyne.CloudProvider`: `ProviderName()`, the error of `Setup` (`none` is the nil
error), and the store of `CloudPreferences` when the provider also is a
`fyne.CloudProviderPreferences`. -/
structure CloudProvider where
  name : String
  setup : Option String
  cloudPreferences : Option Store
deriving DecidableEq, Repr

/-- Observable steps of an execution, in program order. -/
inductive Event where
  | rLock
  | rUnlock
  | lock
  | unlock
  | setPrefs (p : Store) (b : Option Addr)
  | deletePrefs (p : Store)
  | setAppPrefs (p : Store)
  | itemsRLock (b : Addr)
  | itemsRUnlock (b : Addr)
  | itemsLock (b : Addr)
  | itemsUnlock (b : Addr)
  | replaceProvider (item : preferenceItem) (p : Store)
  | checkForChange (item : preferenceItem)
  | logError (reason : String) (err : Option String)
  | installPrefs (p : Store)
  | loadPrefs (p : Store)
  | addChangeListener (p : Store) (l : Listener)
  | call (l : Listener)
  | settingsApply
deriving DecidableEq, Repr

/-- The struct `preferencesMap` (its lock is traced, not stored). -/
structure preferencesMap where
  prefs : List (Store × Option Addr)
  appPrefs : Option Store
deriving DecidableEq, Repr

/-- The fields of `fyneApp` that the embedded functions read or write. -/
structure fyneApp where
  uniqueID : String
  cloud : Option CloudProvider
  prefs : Store
deriving DecidableEq, Repr

/-- Everything the embedded code can reach: the registry `m`, the current application
`a`, the heap of binding sets (`items` map of the set at each address), the change
listeners registered on each store, the next store instance that the default
construction hands out, and the trace. -/
structure World where
  m : preferencesMap
  a : fyneApp
  heap : List (List (String × preferenceItem))
  changeListeners : List (Store × List Listener)
  freshStore : Store
  trace : List Event
deriving DecidableEq, Repr

/-- How a call ends: normally with a value, with a nil pointer dereference, or with the
recursion budget of the embedding used up. -/
inductive Outcome (α : Type) where
  | ok (ret : α) (w : World)
  | nilDeref (w : World)
  | outOfFuel
deriving DecidableEq, Repr

/-- Record one event. -/
def World.emit (w : World) (e : Event) : World :=
  { w with trace := w.trace ++ [e] }

/-- Record a run of events. -/
def World.emitAll (w : World) (es : List Event) : World :=
  { w with trace := w.trace ++ es }

/-- The `items` map of the binding set at address `b`. -/
def World.itemsAt (w : World) (b : Addr) : List (String × preferenceItem) :=
  w.heap.getD b []

/-- Modelled from the spec: `Preferences.ChangeListeners()` of a store, which is not in
these files; it enumerates the listeners registered on the store, oldest first. -/
def ChangeListeners (w : World) (p : Store) : List Listener :=
  (mapGet w.changeListeners p).getD []

/-- Modelled from the spec: `Preferences.AddChangeListener(fn)` of a store, which is not
in these files; it registers one more listener on the store. -/
def AddChangeListener (p : Store) (l : Listener) (w : World) : World :=
  { w with changeListeners := mapSet w.changeListeners p (ChangeListeners w p ++ [l]) }

/-! ## `pref_helper.go` -/

/-- `preferenceBindings.getItem`. -/
def preferenceBindings.getItem (b : Option Addr) (key : String) (w : World) :
    Outcome (Option preferenceItem) :=
  match b with
  | none => .nilDeref w
  | some a =>
    let w := w.emit (.itemsRLock a)
    let item := mapGet (w.itemsAt a) key
    .ok item (w.emit (.itemsRUnlock a))

/-- `preferenceBindings.list`: a nil receiver faults at `b.lock.RLock()`. -/
def preferenceBindings.list (b : Option Addr) (w : World) : Outcome (List preferenceItem) :=
  match b with
  | none => .nilDeref w
  | some a =>
    let w := w.emit (.itemsRLock a)
    let allItems := w.itemsAt a
    let w := w.emit (.itemsRUnlock a)
    .ok (allItems.map Prod.snd) w

/-- `preferenceBindings.setItem`. -/
def preferenceBindings.setItem (b : Option Addr) (key : String) (item : preferenceItem)
    (w : World) : Outcome Unit :=
  match b with
  | none => .nilDeref w
  | some a =>
    let w := w.emit (.itemsLock a)
    let w := { w with heap := w.heap.set a (mapSet (w.itemsAt a) key item) }
    .ok () (w.emit (.itemsUnlock a))

/-- `newPreferencesMap`. -/
def newPreferencesMap : preferencesMap :=
  { prefs := [], appPrefs := none }

/-- Go `m.prefs[p]`: the nil pointer when the key has no entry. -/
def prefsAt (m : preferencesMap) (p : Store) : Option Addr :=
  (mapGet m.prefs p).getD none

/-- `fyneApp.Preferences` on the current application. -/
def fyneApp.Preferences (w : World) : Store × World :=
  if w.a.uniqueID = "" then
    (w.a.prefs, w.emit (.logError "Preferences API requires a unique ID, use app.NewWithID()" none))
  else
    (w.a.prefs, w)

/-- `preferencesMap.ensurePreferencesAttached`. -/
def ensurePreferencesAttached (p : Store) (w : World) : Outcome Addr :=
  let w := w.emit .rLock
  let binds := prefsAt w.m p
  let w := w.emit .rUnlock
  match binds with
  | some b => .ok b w
  | none =>
    let w := w.emit .lock
    let b := w.heap.length
    let w := { w with heap := w.heap ++ [[]] }
    let w := ({ w with m := { w.m with prefs := mapSet w.m.prefs p (some b) } }).emit
      (.setPrefs p (some b))
    let w := w.emit .unlock
    let w := (AddChangeListener p .prefsChanged w).emit (.addChangeListener p .prefsChanged)
    .ok b w

/-- The body of `preferencesMap.preferencesChanged`, over the `getBindings` it calls. -/
def preferencesChangedWith (gb : Store → World → Outcome (Option Addr)) (p : Store)
    (w : World) : Outcome Unit :=
  match gb p w with
  | .ok none w => .ok () w
  | .ok (some b) w =>
    match preferenceBindings.list (some b) w with
    | .ok items w => .ok () (w.emitAll (items.map Event.checkForChange))
    | .nilDeref w => .nilDeref w
    | .outOfFuel => .outOfFuel
  | .nilDeref w => .nilDeref w
  | .outOfFuel => .outOfFuel

/-- The body of `preferencesMap.migratePreferences`, over the `getBindings` that its
call of `preferencesChanged` reaches. -/
def migratePreferencesWith (gb : Store → World → Outcome (Option Addr)) (p1 p2 : Store)
    (w : World) : Outcome Unit :=
  let v := prefsAt w.m p1
  let w := ({ w with m := { w.m with prefs := mapSet w.m.prefs p2 v } }).emit (.setPrefs p2 v)
  let w := ({ w with m := { w.m with prefs := mapDelete w.m.prefs p1 } }).emit (.deletePrefs p1)
  let w := ({ w with m := { w.m with appPrefs := some p2 } }).emit (.setAppPrefs p2)
  match preferenceBindings.list (prefsAt w.m p2) w with
  | .ok items w =>
    let w := w.emitAll ((items.filter (fun b => b.backed)).map
      (fun b => Event.replaceProvider b p2))
    preferencesChangedWith gb p2 w
  | .nilDeref w => .nilDeref w
  | .outOfFuel => .outOfFuel

/-- `preferencesMap.getBindings`.  The three functions `getBindings`,
`migratePreferences` and `preferencesChanged` call each other; the first argument bounds
the depth of that recursion. -/
def getBindings : Nat → Store → World → Outcome (Option Addr)
  | 0, _, _ => .outOfFuel
  | fuel + 1, p, w =>
    let w := w.emit .rLock
    let (cur, w) := fyneApp.Preferences w
    let r : Outcome Unit :=
      if p = cur then
        match w.m.appPrefs with
        | none => .ok () (({ w with m := { w.m with appPrefs := some p } }).emit (.setAppPrefs p))
        | some q =>
          if q ≠ p then migratePreferencesWith (getBindings fuel) q p w
          else .ok () w
      else .ok () w
    match r with
    | .ok _ w =>
      let binds := prefsAt w.m p
      .ok binds (w.emit .rUnlock)
    | .nilDeref w => .nilDeref w
    | .outOfFuel => .outOfFuel

/-- `preferencesMap.preferencesChanged`. -/
def preferencesChanged (fuel : Nat) (p : Store) (w : World) : Outcome Unit :=
  preferencesChangedWith (getBindings fuel) p w

/-- `preferencesMap.migratePreferences`. -/
def migratePreferences (fuel : Nat) (p1 p2 : Store) (w : World) : Outcome Unit :=
  migratePreferencesWith (getBindings fuel) p1 p2 w

/-! ## `app.go` -/

/-- Running a listener.  The closure of `ensurePreferencesAttached` calls
`m.preferencesChanged(fyne.CurrentApp().Preferences())`; the body of a caller's function
is outside these files. -/
def Listener.run (fuel : Nat) : Listener → World → Outcome Unit
  | .prefsChanged, w =>
    let (cur, w) := fyneApp.Preferences w
    preferencesChanged fuel cur w
  | .user _, w => .ok () w

/-- Modelled from the spec: `newPreferences(a)` is not in these files; the default store
construction yields a store instance that did not exist before.  `newDefaultPreferences`
then loads it when the application has a unique ID. -/
def newDefaultPreferences (w : World) : Store × World :=
  let p := w.freshStore
  let w := { w with freshStore := w.freshStore + 1 }
  if w.a.uniqueID ≠ "" then (p, w.emit (.loadPrefs p)) else (p, w)

/-- The loop `for _, l := range listeners` of `transitionCloud`. -/
def relisten (fuel : Nat) : List Listener → World → Outcome Unit
  | [], w => .ok () w
  | l :: rest, w =>
    let w := (AddChangeListener w.a.prefs l w).emit (.addChangeListener w.a.prefs l)
    match Listener.run fuel l (w.emit (.call l)) with
    | .ok _ w => relisten fuel rest w
    | .nilDeref w => .nilDeref w
    | .outOfFuel => .outOfFuel

/-- `fyneApp.transitionCloud`. -/
def transitionCloud (fuel : Nat) (p : CloudProvider) (w : World) : Outcome Unit :=
  match p.setup with
  | some err => .ok () (w.emit (.logError ("Failed to set up cloud provider " ++ p.name) (some err)))
  | none =>
    let w := { w with a := { w.a with cloud := some p } }
    let listeners := ChangeListeners w w.a.prefs
    let (np, w) := match p.cloudPreferences with
      | some s => (s, w)
      | none => newDefaultPreferences w
    let w := ({ w with a := { w.a with prefs := np } }).emit (.installPrefs np)
    match relisten fuel listeners w with
    | .ok _ w => .ok () (w.emit .settingsApply)
    | .nilDeref w => .nilDeref w
    | .outOfFuel => .outOfFuel

/-! ## Reading a trace -/

/-- The diagnostic that `fyneApp.Preferences` writes when the application has no ID. -/
def idWarning (a : fyneApp) : List Event :=
  if a.uniqueID = "" then
    [Event.logError "Preferences API requires a unique ID, use app.NewWithID()" none]
  else []


/-- The events that a call added: the trace of the world after it, past the trace of the
world before it. -/
def newEvents (w w' : World) : List Event :=
  w'.trace.drop w.trace.length

/-- The `replaceProvider` calls of a trace, in order: the item and the store passed. -/
def retargets (t : List Event) : List (preferenceItem × Store) :=
  t.filterMap fun e =>
    match e with
    | .replaceProvider b p => some (b, p)
    | _ => none

/-- The `checkForChange` calls of a trace, in order. -/
def checks (t : List Event) : List preferenceItem :=
  t.filterMap fun e =>
    match e with
    | .checkForChange b => some b
    | _ => none

/-- The bindings held by the binding set at address `b`, in the order `list()` yields
them. -/
def World.bindingsAt (w : World) (b : Addr) : List preferenceItem :=
  (w.itemsAt b).map Prod.snd

/-- What `migratePreferences r n` records up to the end of its `replaceProvider` loop,
after the read lock and the `Preferences()` call of the `getBindings` that runs it. -/
def retargetEvents (w : World) (r n : Store) (S : Addr) : List Event :=
  [Event.rLock] ++ idWarning w.a ++
    [Event.setPrefs n (some S), Event.deletePrefs r, Event.setAppPrefs n,
      Event.itemsRLock S, Event.itemsRUnlock S] ++
    ((w.bindingsAt S).filter fun b => b.backed).map fun b => Event.replaceProvider b n

/-- What a `getBindings` that changes nothing records. -/
def lookupEvents (a : fyneApp) : List Event :=
  [Event.rLock] ++ idWarning a ++ [Event.rUnlock]

/-- The whole trace of a migrating `getBindings n`: the move and the `replaceProvider`
loop, then `preferencesChanged n` (a plain lookup and the `checkForChange` loop), then
the release of the outer read lock. -/
def migrationEvents (w : World) (r n : Store) (S : Addr) : List Event :=
  retargetEvents w r n S ++
    (lookupEvents w.a ++ [Event.itemsRLock S, Event.itemsRUnlock S] ++
      (w.bindingsAt S).map Event.checkForChange ++ [Event.rUnlock])

/-- The writes of the registry fields `m.prefs` and `m.appPrefs` in a trace, in order. -/
def registryWrites (t : List Event) : List Event :=
  t.filter fun e =>
    match e with
    | .setPrefs _ _ => true
    | .deletePrefs _ => true
    | .setAppPrefs _ => true
    | _ => false

/-- The `AddChangeListener` calls of a trace, in order: the store and the listener. -/
def registrations (t : List Event) : List (Store × Listener) :=
  t.filterMap fun e =>
    match e with
    | .addChangeListener p l => some (p, l)
    | _ => none

/-- The listener invocations of a trace, in order. -/
def calls (t : List Event) : List Listener :=
  t.filterMap fun e =>
    match e with
    | .call l => some l
    | _ => none

/-- The `fyne.LogError` entries of a trace, in order: the reason and the error. -/
def diagnostics (t : List Event) : List (String × Option String) :=
  t.filterMap fun e =>
    match e with
    | .logError reason err => some (reason, err)
    | _ => none

/-- An application with an ID whose current store is store 2, while the registry still
remembers store 1, which holds the binding set at address 0 with a re-targetable item
under "x" and a fixed item under "y". -/
def swappedWorld : World :=
  { m := { prefs := [(1, some 0)], appPrefs := some 1 }
    a := { uniqueID := "app", cloud := none, prefs := 2 }
    heap := [[("x", { id := 0, backed := true }), ("y", { id := 1, backed := false })]]
    changeListeners := [(1, [Listener.prefsChanged, Listener.user 7])]
    freshStore := 3
    trace := [] }

/-- A provider named "Q" whose `Setup` fails. -/
def failingProvider : CloudProvider :=
  { name := "Q", setup := some "offline", cloudPreferences := some 2 }

/-- A step of a client of the registry: one of its three operations on a store, or the
application's current store becoming another instance. -/
inductive Call where
  | ensureAttached (p : Store)
  | bindingsFor (p : Store)
  | notify (p : Store)
  | setCurrent (p : Store)
deriving DecidableEq, Repr

/-- Run one step; the value is the binding set the operation returned (nil for the
steps that return nothing). -/
def Call.run (fuel : Nat) : Call → World → Outcome (Option Addr)
  | .ensureAttached p, w =>
    match ensurePreferencesAttached p w with
    | .ok b w => .ok (some b) w
    | .nilDeref w => .nilDeref w
    | .outOfFuel => .outOfFuel
  | .bindingsFor p, w => getBindings fuel p w
  | .notify p, w =>
    match preferencesChanged fuel p w with
    | .ok _ w => .ok none w
    | .nilDeref w => .nilDeref w
    | .outOfFuel => .outOfFuel
  | .setCurrent p, w => .ok none { w with a := { w.a with prefs := p } }

/-- Run steps one after the other, collecting what they returned; a failing step ends
the run. -/
def runCalls (fuel : Nat) : List Call → World → Outcome (List (Option Addr))
  | [], w => .ok [] w
  | c :: rest, w =>
    match c.run fuel w with
    | .ok ret w =>
      match runCalls fuel rest w with
      | .ok rets w => .ok (ret :: rets) w
      | .nilDeref w => .nilDeref w
      | .outOfFuel => .outOfFuel
    | .nilDeref w => .nilDeref w
    | .outOfFuel => .outOfFuel

/-- The lock discipline of a trace: with `readers` read locks and, when `writer` holds,
the write lock of the registry held at its start, every write of `m.prefs` or
`m.appPrefs` in it happens with the write lock held and no read lock held. -/
def lockDiscipline : Nat → Bool → List Event → Bool
  | _, _, [] => true
  | readers, writer, .rLock :: t => lockDiscipline (readers + 1) writer t
  | readers, writer, .rUnlock :: t => lockDiscipline (readers - 1) writer t
  | readers, _, .lock :: t => lockDiscipline readers true t
  | readers, _, .unlock :: t => lockDiscipline readers false t
  | readers, writer, .setPrefs _ _ :: t =>
    (writer && decide (readers = 0)) && lockDiscipline readers writer t
  | readers, writer, .deletePrefs _ :: t =>
    (writer && decide (readers = 0)) && lockDiscipline readers writer t
  | readers, writer, .setAppPrefs _ :: t =>
    (writer && decide (readers = 0)) && lockDiscipline readers writer t
  | readers, writer, _ :: t => lockDiscipline readers writer t

/-- A new application with an ID, current store 1, and an empty registry. -/
def freshWorld : World :=
  { m := newPreferencesMap
    a := { uniqueID := "app", cloud := none, prefs := 1 }
    heap := []
    changeListeners := []
    freshStore := 2
    trace := [] }

/-- Store 1 is remembered and holds the binding set at address 0; store 2, the current
store, holds its own binding set at address 1. -/
def twoSetsWorld : World :=
  { m := { prefs := [(1, some 0), (2, some 1)], appPrefs := some 1 }
    a := { uniqueID := "app", cloud := none, prefs := 2 }
    heap := [[("x", { id := 0, backed := true })], [("z", { id := 2, backed := true })]]
    changeListeners := [(1, [Listener.prefsChanged]), (2, [Listener.prefsChanged])]
    freshStore := 3
    trace := [] }

/-- The steps of `transitionCloud` on the store slot and the listeners, in order: the
installation of the new store, each `AddChangeListener`, each listener invocation, and
the settings refresh. -/
def transitionSteps (t : List Event) : List Event :=
  t.filter fun e =>
    match e with
    | .installPrefs _ => true
    | .addChangeListener _ _ => true
    | .call _ => true
    | .settingsApply => true
    | _ => false

/-- The store that a successful `transitionCloud` installs: the provider's own store,
else the one the default construction creates. -/
def newStore (p : CloudProvider) (w : World) : Store :=
  match p.cloudPreferences with
  | some s => s
  | none => w.freshStore

/-- The registry once a lookup of the current store `cur` has gone through: `cur` is
remembered, and the entry of a different, previously remembered store has moved to
`cur`. -/
def settled (m : preferencesMap) (cur : Store) : preferencesMap :=
  match m.appPrefs with
  | none => { m with appPrefs := some cur }
  | some r =>
    if r = cur then m
    else { prefs := mapDelete (mapSet m.prefs cur (prefsAt m r)) r, appPrefs := some cur }

/-- The remembered store, when there is one and it is not the current store, has a
binding set in the table. -/
def Migratable (w : World) : Prop :=
  ∀ r, w.m.appPrefs = some r → r = w.a.prefs ∨ ∃ S, prefsAt w.m r = some S

/-- From `w` to `w'` only the registry and the trace changed, and the trace grew by
events that are no steps of a transition. -/
def RegistryOnly (w w' : World) : Prop :=
  w'.a = w.a ∧ w'.heap = w.heap ∧ w'.changeListeners = w.changeListeners ∧
    w'.freshStore = w.freshStore ∧ ∃ es, w'.trace = w.trace ++ es ∧ transitionSteps es = []

/-- A provider named "P" whose `Setup` succeeds and which supplies store 2. -/
def cloudProvider : CloudProvider :=
  { name := "P", setup := none, cloudPreferences := some 2 }

/-- A provider whose `Setup` succeeds and which supplies store 1. -/
def sameStoreProvider : CloudProvider :=
  { name := "S", setup := none, cloudPreferences := some 1 }

/-- The current store 1 and the store 2 both have the caller's listener 7 registered;
the registry is empty. -/
def sharedListenerWorld : World :=
  { m := newPreferencesMap
    a := { uniqueID := "app", cloud := none, prefs := 1 }
    heap := []
    changeListeners := [(1, [Listener.user 7]), (2, [Listener.user 7])]
    freshStore := 3
    trace := [] }

/-- What `freshWorld` becomes by `ensurePreferencesAttached 1`, `setItem` of a
re-targetable item under "x" and of a fixed item under "y" on the binding set returned,
and the registration of the caller's listener 7 on store 1.  No `getBindings` has run:
nothing is remembered. -/
def attachedOnlyWorld : World :=
  { m := { prefs := [(1, some 0)], appPrefs := none }
    a := { uniqueID := "app", cloud := none, prefs := 1 }
    heap := [[("y", { id := 1, backed := false }), ("x", { id := 0, backed := true })]]
    changeListeners := [(1, [Listener.prefsChanged, Listener.user 7])]
    freshStore := 2
    trace := [Event.rLock, Event.rUnlock, Event.lock, Event.setPrefs 1 (some 0), Event.unlock,
      Event.addChangeListener 1 Listener.prefsChanged, Event.itemsLock 0, Event.itemsUnlock 0,
      Event.itemsLock 0, Event.itemsUnlock 0] }

/-- As `attachedOnlyWorld`, after a `getBindings 1` that remembered store 1. -/
def attachedWorld : World :=
  { m := { prefs := [(1, some 0)], appPrefs := some 1 }
    a := { uniqueID := "app", cloud := none, prefs := 1 }
    heap := [[("y", { id := 1, backed := false }), ("x", { id := 0, backed := true })]]
    changeListeners := [(1, [Listener.prefsChanged, Listener.user 7])]
    freshStore := 2
    trace := [] }

/-- The registry remembers the current store 1, which was looked up but never attached:
it has no binding set.  The only listener of store 1 is the caller's listener 7. -/
def unattachedRememberedWorld : World :=
  { m := { prefs := [], appPrefs := some 1 }
    a := { uniqueID := "app", cloud := none, prefs := 1 }
    heap := []
    changeListeners := [(1, [Listener.user 7])]
    freshStore := 3
    trace := [] }

/-! ## Lemmas -/

theorem mapGet_mapDelete_self {κ ν : Type} [DecidableEq κ] (m : List (κ × ν)) (k : κ) :
    mapGet (mapDelete m k) k = none := by
  induction m with
  | nil => rfl
  | cons e rest ih =>
    obtain ⟨k', v⟩ := e
    by_cases h : k' = k <;> simp [mapDelete, mapGet, h, ih]

theorem mapGet_mapDelete_ne {κ ν : Type} [DecidableEq κ] (m : List (κ × ν)) {k q : κ}
    (h : q ≠ k) : mapGet (mapDelete m k) q = mapGet m q := by
  induction m with
  | nil => rfl
  | cons e rest ih =>
    obtain ⟨k', v⟩ := e
    by_cases h1 : k' = k
    · subst h1
      have h2 : ¬ k' = q := fun e => h e.symm
      simp [mapDelete, mapGet, h2, ih]
    · by_cases h2 : k' = q
      · subst h2
        simp [mapDelete, mapGet, h]
      · simp [mapDelete, mapGet, h1, h2, ih]

theorem mapGet_mapSet_self {κ ν : Type} [DecidableEq κ] (m : List (κ × ν)) (k : κ) (v : ν) :
    mapGet (mapSet m k v) k = some v := by
  simp [mapSet, mapGet]

theorem mapGet_mapSet_ne {κ ν : Type} [DecidableEq κ] (m : List (κ × ν)) {k q : κ} (v : ν)
    (h : q ≠ k) : mapGet (mapSet m k v) q = mapGet m q := by
  have h' : ¬ k = q := fun e => h e.symm
  simp [mapSet, mapGet, h', mapGet_mapDelete_ne m h]

theorem Preferences_eq (w : World) :
    fyneApp.Preferences w = (w.a.prefs, w.emitAll (idWarning w.a)) := by
  unfold fyneApp.Preferences idWarning World.emitAll World.emit
  by_cases h : w.a.uniqueID = "" <;> simp [h]

theorem getBindings_migrate (fuel : Nat) (w : World) (r n : Store) (S : Addr)
    (hrem : w.m.appPrefs = some r) (hS : mapGet w.m.prefs r = some (some S))
    (hne : n ≠ r) (hcur : w.a.prefs = n) :
    getBindings (fuel + 2) n w = .ok (some S)
      { w with
        m := { prefs := mapDelete (mapSet w.m.prefs n (some S)) r, appPrefs := some n }
        trace := w.trace ++ migrationEvents w r n S } := by
  have hne' : ¬ r = n := fun e => hne e.symm
  simp [getBindings, Preferences_eq, migratePreferencesWith, preferencesChangedWith,
    preferenceBindings.list, World.emit, World.emitAll, prefsAt, hrem, hS, hcur, hne, hne',
    mapGet_mapDelete_ne, mapGet_mapSet_self, World.itemsAt, idWarning, migrationEvents,
    retargetEvents, lookupEvents, World.bindingsAt]

theorem newEvents_append (w w' : World) (es : List Event) (h : w'.trace = w.trace ++ es) :
    newEvents w w' = es := by
  simp [newEvents, h]

theorem retargets_append (s t : List Event) :
    retargets (s ++ t) = retargets s ++ retargets t := by
  simp [retargets, List.filterMap_append]

theorem checks_append (s t : List Event) : checks (s ++ t) = checks s ++ checks t := by
  simp [checks, List.filterMap_append]

theorem retargets_idWarning (a : fyneApp) : retargets (idWarning a) = [] := by
  unfold idWarning; split <;> rfl

theorem checks_idWarning (a : fyneApp) : checks (idWarning a) = [] := by
  unfold idWarning; split <;> rfl

theorem retargets_replace (l : List preferenceItem) (n : Store) :
    retargets (l.map fun b => Event.replaceProvider b n) = l.map fun b => (b, n) := by
  induction l with
  | nil => rfl
  | cons b rest ih => simpa [retargets] using ih

theorem checks_replace (l : List preferenceItem) (n : Store) :
    checks (l.map fun b => Event.replaceProvider b n) = [] := by
  induction l with
  | nil => rfl
  | cons b rest ih => simp [checks]

theorem retargets_check (l : List preferenceItem) :
    retargets (l.map Event.checkForChange) = [] := by
  induction l with
  | nil => rfl
  | cons b rest ih => simp [retargets]

theorem checks_check (l : List preferenceItem) :
    checks (l.map Event.checkForChange) = l := by
  induction l with
  | nil => rfl
  | cons b rest ih => simpa [checks] using ih

theorem count_retarget_list (l : List preferenceItem) (n : Store) (b : preferenceItem) :
    ((l.filter fun c => c.backed).map fun c => (c, n)).count (b, n) =
      if b.backed then l.count b else 0 := by
  induction l with
  | nil => simp
  | cons c rest ih =>
    by_cases hc : c.backed = true
    · by_cases hb : c = b
      · subst hb
        simp [hc, List.filter_cons, ih]
      · have hb' : ¬ (c, n) = (b, n) := fun e => hb (Prod.mk.inj e).1
        simp [hc, List.filter_cons, List.count_cons, hb, hb', ih]
    · have hb : ¬ c = b ∨ b.backed = false := by
        by_cases e : c = b
        · right; subst e; simpa using hc
        · left; exact e
      rcases hb with hb | hb
      · simp [hc, List.filter_cons, List.count_cons, hb, ih]
      · simp [hc, List.filter_cons, ih, hb]
theorem getBindings_remembered (fuel : Nat) (w : World) (p : Store)
    (h : w.m.appPrefs = some p) :
    getBindings (fuel + 1) p w = .ok (prefsAt w.m p) (w.emitAll (lookupEvents w.a)) := by
  by_cases hc : p = w.a.prefs <;>
  simp [getBindings, Preferences_eq, World.emit, World.emitAll, prefsAt, h, hc, lookupEvents]

theorem getBindings_other (fuel : Nat) (w : World) (p : Store) (h : p ≠ w.a.prefs) :
    getBindings (fuel + 1) p w = .ok (prefsAt w.m p) (w.emitAll (lookupEvents w.a)) := by
  simp [getBindings, Preferences_eq, World.emit, World.emitAll, prefsAt, h, lookupEvents]

theorem getBindings_first (fuel : Nat) (w : World) (p : Store) (hc : w.a.prefs = p)
    (h : w.m.appPrefs = none) :
    getBindings (fuel + 1) p w = .ok (prefsAt w.m p)
      { w with
        m := { w.m with appPrefs := some p }
        trace := w.trace ++ ([Event.rLock] ++ idWarning w.a ++ [Event.setAppPrefs p, Event.rUnlock]) } := by
  simp [getBindings, Preferences_eq, World.emit, World.emitAll, prefsAt, h, hc]

theorem prefsAt_eq_some (w : World) (p : Store) (S : Addr) :
    prefsAt w.m p = some S ↔ mapGet w.m.prefs p = some (some S) := by
  unfold prefsAt
  cases h : mapGet w.m.prefs p with
  | none => simp
  | some v => simp

theorem ensure_attached (w : World) (p : Store) (S : Addr) (h : prefsAt w.m p = some S) :
    ensurePreferencesAttached p w = .ok S (w.emitAll [Event.rLock, Event.rUnlock]) := by
  simp [ensurePreferencesAttached, h, World.emit, World.emitAll]

theorem ensure_fresh (w : World) (p : Store) (h : prefsAt w.m p = none) :
    ensurePreferencesAttached p w = .ok w.heap.length
      { w with
        m := { w.m with prefs := mapSet w.m.prefs p (some w.heap.length) }
        heap := w.heap ++ [[]]
        changeListeners := mapSet w.changeListeners p (ChangeListeners w p ++ [Listener.prefsChanged])
        trace := w.trace ++ [Event.rLock, Event.rUnlock, Event.lock,
          Event.setPrefs p (some w.heap.length), Event.unlock,
          Event.addChangeListener p Listener.prefsChanged] } := by
  simp [ensurePreferencesAttached, h, World.emit, AddChangeListener, ChangeListeners]

theorem ensure_step (w : World) (p : Store) :
    ∃ S w', ensurePreferencesAttached p w = .ok S w' ∧
      w'.a = w.a ∧ w'.m.appPrefs = w.m.appPrefs ∧ prefsAt w'.m p = some S ∧
      ∀ T, prefsAt w.m p = some T → S = T := by
  cases h : prefsAt w.m p with
  | some S =>
    exact ⟨S, _, ensure_attached w p S h, rfl, rfl, h, fun T hT => Option.some.inj hT⟩
  | none =>
    refine ⟨_, _, ensure_fresh w p h, rfl, rfl, ?_, ?_⟩
    · simp [prefsAt, mapGet_mapSet_self]
    · intro T hT; cases hT

theorem lookup_step (fuel : Nat) (w : World) (p : Store)
    (hplain : w.a.prefs ≠ p ∨ w.m.appPrefs = none ∨ w.m.appPrefs = some p) :
    ∃ w', getBindings (fuel + 1) p w = .ok (prefsAt w.m p) w' ∧
      w'.a = w.a ∧ w'.m.prefs = w.m.prefs ∧ w'.heap = w.heap ∧
      (w'.a.prefs ≠ p ∨ w'.m.appPrefs = none ∨ w'.m.appPrefs = some p) := by
  by_cases hc : w.a.prefs = p
  · rcases hplain with h | h | h
    · exact absurd hc h
    · exact ⟨_, getBindings_first fuel w p hc h, rfl, rfl, rfl, Or.inr (Or.inr rfl)⟩
    · exact ⟨_, getBindings_remembered fuel w p h, rfl, rfl, rfl, Or.inr (Or.inr h)⟩
  · exact ⟨_, getBindings_other fuel w p (fun e => hc e.symm), rfl, rfl, rfl, Or.inl hc⟩

theorem calls_agree (fuel : Nat) (p : Store) (cs : List Call) :
    ∀ w : World, (∀ c ∈ cs, c = Call.ensureAttached p ∨ c = Call.bindingsFor p) →
      ((w.a.prefs ≠ p ∨ w.m.appPrefs = none ∨ w.m.appPrefs = some p) ∨
        ∀ c ∈ cs, c = Call.ensureAttached p) →
      ∃ rets w', runCalls (fuel + 1) cs w = .ok rets w' ∧ rets.length = cs.length ∧
        (∀ S, prefsAt w.m p = some S → ∀ x ∈ rets, x = some S) ∧
        ∀ S T, some S ∈ rets → some T ∈ rets → S = T := by
  induction cs with
  | nil =>
    intro w _ _
    exact ⟨[], w, rfl, rfl, fun _ _ x hx => absurd hx (List.not_mem_nil x),
      fun S _ h _ => absurd h (List.not_mem_nil (some S))⟩
  | cons c rest ih =>
    intro w hcs hinv
    have hrest : ∀ c ∈ rest, c = Call.ensureAttached p ∨ c = Call.bindingsFor p :=
      fun d hd => hcs d (List.mem_cons_of_mem c hd)
    have key : ∃ ret w1, c.run (fuel + 1) w = .ok ret w1 ∧
        ((w1.a.prefs ≠ p ∨ w1.m.appPrefs = none ∨ w1.m.appPrefs = some p) ∨
          ∀ c ∈ rest, c = Call.ensureAttached p) ∧
        (∀ S, prefsAt w.m p = some S → ret = some S) ∧
        (∀ S, ret = some S → prefsAt w1.m p = some S) := by
      have hens : c = Call.ensureAttached p → ∃ ret w1, c.run (fuel + 1) w = .ok ret w1 ∧
          ((w1.a.prefs ≠ p ∨ w1.m.appPrefs = none ∨ w1.m.appPrefs = some p) ∨
            ∀ c ∈ rest, c = Call.ensureAttached p) ∧
          (∀ S, prefsAt w.m p = some S → ret = some S) ∧
          (∀ S, ret = some S → prefsAt w1.m p = some S) := by
        intro hc
        subst hc
        obtain ⟨S, w1, h1, ha, hr, hp, hT⟩ := ensure_step w p
        refine ⟨some S, w1, by simp [Call.run, h1], ?_, ?_, ?_⟩
        · rcases hinv with h | h
          · left; rw [ha, hr]; exact h
          · right; exact fun d hd => h d (List.mem_cons_of_mem _ hd)
        · intro T hT'; rw [hT T hT']
        · intro T hT'; rw [← Option.some.inj hT']; exact hp
      rcases hinv with hplain | hall
      · rcases hcs c (List.mem_cons_self c rest) with hc | hc
        · exact hens hc
        · subst hc
          obtain ⟨w1, h1, ha, hpr, _, hpl⟩ := lookup_step fuel w p hplain
          refine ⟨prefsAt w.m p, w1, h1, Or.inl hpl, fun S hS => hS, ?_⟩
          intro S hS
          simpa [prefsAt, hpr] using hS
      · exact hens (hall c (List.mem_cons_self c rest))
    obtain ⟨ret, w1, hrun, hinv1, hknown, hret⟩ := key
    obtain ⟨rets, w2, hrun2, hlen, hall2, hagree⟩ := ih w1 hrest hinv1
    refine ⟨ret :: rets, w2, by simp [runCalls, hrun, hrun2], by simp [hlen], ?_, ?_⟩
    · intro S hS x hx
      rcases List.mem_cons.1 hx with hx | hx
      · rw [hx]; exact hknown S hS
      · exact hall2 S (hret S (hknown S hS)) x hx
    · intro S T hS hT
      rcases List.mem_cons.1 hS with hS | hS
      · have hp := hret S hS.symm
        rcases List.mem_cons.1 hT with hT | hT
        · rw [← hS] at hT; exact (Option.some.inj hT).symm
        · exact (Option.some.inj (hall2 S hp _ hT)).symm
      · rcases List.mem_cons.1 hT with hT | hT
        · have hp := hret T hT.symm
          exact Option.some.inj (hall2 T hp _ hS)
        · exact hagree S T hS hT

theorem transitionSteps_append (s t : List Event) :
    transitionSteps (s ++ t) = transitionSteps s ++ transitionSteps t := by
  simp [transitionSteps]

theorem transitionSteps_idWarning (a : fyneApp) : transitionSteps (idWarning a) = [] := by
  unfold idWarning; split <;> rfl

theorem transitionSteps_replace (l : List preferenceItem) (n : Store) :
    transitionSteps (l.map fun b => Event.replaceProvider b n) = [] := by
  induction l with
  | nil => rfl
  | cons b rest ih => simp [transitionSteps]

theorem transitionSteps_check (l : List preferenceItem) :
    transitionSteps (l.map Event.checkForChange) = [] := by
  induction l with
  | nil => rfl
  | cons b rest ih => simp [transitionSteps]

theorem transitionSteps_lookup (a : fyneApp) : transitionSteps (lookupEvents a) = [] := by
  simp only [lookupEvents, transitionSteps_append, transitionSteps_idWarning]
  rfl

theorem transitionSteps_migration (w : World) (r n : Store) (S : Addr) :
    transitionSteps (migrationEvents w r n S) = [] := by
  simp only [migrationEvents, retargetEvents, transitionSteps_append,
    transitionSteps_idWarning, transitionSteps_replace, transitionSteps_check,
    transitionSteps_lookup]
  rfl

theorem RegistryOnly.trans {w1 w2 w3 : World} (h1 : RegistryOnly w1 w2)
    (h2 : RegistryOnly w2 w3) : RegistryOnly w1 w3 := by
  obtain ⟨a1, b1, c1, d1, es1, e1, f1⟩ := h1
  obtain ⟨a2, b2, c2, d2, es2, e2, f2⟩ := h2
  refine ⟨a2.trans a1, b2.trans b1, c2.trans c1, d2.trans d1, es1 ++ es2, ?_, ?_⟩
  · rw [e2, e1, List.append_assoc]
  · rw [transitionSteps_append, f1, f2]; rfl

/-- A lookup of the current store in a migratable world returns, and leaves the registry
settled. -/
theorem getBindings_current (fuel : Nat) (w : World) (hm : Migratable w) :
    ∃ w', getBindings (fuel + 2) w.a.prefs w = .ok (prefsAt w'.m w.a.prefs) w' ∧
      w'.m = settled w.m w.a.prefs ∧ RegistryOnly w w' := by
  have key : ∀ (ret : Option Addr) (w' : World),
      getBindings (fuel + 2) w.a.prefs w = .ok ret w' → ret = prefsAt w'.m w.a.prefs →
      w'.m = settled w.m w.a.prefs → RegistryOnly w w' →
      ∃ w', getBindings (fuel + 2) w.a.prefs w = .ok (prefsAt w'.m w.a.prefs) w' ∧
        w'.m = settled w.m w.a.prefs ∧ RegistryOnly w w' :=
    fun ret w' h1 h2 h3 h4 => ⟨w', h2 ▸ h1, h3, h4⟩
  cases hrem : w.m.appPrefs with
  | none =>
    refine key _ _ (getBindings_first (fuel + 1) w w.a.prefs rfl hrem) ?_ ?_
      ⟨rfl, rfl, rfl, rfl, _, rfl, ?_⟩
    · simp [prefsAt]
    · simp [settled, hrem]
    · simp only [transitionSteps_append, transitionSteps_idWarning]; rfl
  | some r =>
    by_cases hr : r = w.a.prefs
    · subst hr
      refine key _ _ (getBindings_remembered (fuel + 1) w w.a.prefs hrem) ?_ ?_
        ⟨rfl, rfl, rfl, rfl, _, rfl, transitionSteps_lookup _⟩
      · simp [prefsAt, World.emitAll]
      · simp [settled, hrem, World.emitAll]
    · rcases hm r hrem with h | ⟨S, hS⟩
      · exact absurd h hr
      · have hS' := (prefsAt_eq_some w r S).1 hS
        refine key _ _ (getBindings_migrate fuel w r w.a.prefs S hrem hS'
          (fun e => hr e.symm) rfl) ?_ ?_
          ⟨rfl, rfl, rfl, rfl, _, rfl, transitionSteps_migration _ _ _ _⟩
        · simp [prefsAt, mapGet_mapDelete_ne _ (fun e => hr e.symm), mapGet_mapSet_self]
        · simp [settled, hrem, hr, hS]

theorem settled_appPrefs (m : preferencesMap) (cur : Store) :
    (settled m cur).appPrefs = some cur := by
  unfold settled
  cases h : m.appPrefs with
  | none => rfl
  | some r =>
    by_cases hr : r = cur
    · simp [hr, h]
    · simp [hr]

theorem settled_settled (m : preferencesMap) (cur : Store) :
    settled (settled m cur) cur = settled m cur := by
  have h := settled_appPrefs m cur
  generalize settled m cur = m' at h
  simp [settled, h]

theorem preferencesChanged_current (fuel : Nat) (w : World) (hm : Migratable w) :
    ∃ w', preferencesChanged (fuel + 2) w.a.prefs w = .ok () w' ∧
      w'.m = settled w.m w.a.prefs ∧ RegistryOnly w w' := by
  obtain ⟨w1, h1, hm1, hr1⟩ := getBindings_current fuel w hm
  unfold preferencesChanged preferencesChangedWith
  rw [h1]
  cases hb : prefsAt w1.m w.a.prefs with
  | none => exact ⟨w1, rfl, hm1, hr1⟩
  | some b =>
    refine ⟨_, rfl, hm1, hr1.trans ⟨rfl, rfl, rfl, rfl,
      [Event.itemsRLock b, Event.itemsRUnlock b] ++
        ((w1.itemsAt b).map Prod.snd).map Event.checkForChange, ?_, ?_⟩⟩
    · simp [World.emitAll, World.emit, World.itemsAt]
    · simp only [transitionSteps_append, transitionSteps_check]; rfl

theorem run_listener (fuel : Nat) (l : Listener) (w : World)
    (hm : l = Listener.prefsChanged → Migratable w) :
    ∃ w', l.run (fuel + 2) w = .ok () w' ∧
      w'.m = (if l = Listener.prefsChanged then settled w.m w.a.prefs else w.m) ∧
      RegistryOnly w w' := by
  cases l with
  | user id =>
    exact ⟨w, rfl, by simp, rfl, rfl, rfl, rfl, [], by simp, rfl⟩
  | prefsChanged =>
    have hm' : Migratable (w.emitAll (idWarning w.a)) := hm rfl
    obtain ⟨w', h1, h2, h3⟩ := preferencesChanged_current fuel (w.emitAll (idWarning w.a)) hm'
    refine ⟨w', ?_, ?_, ?_⟩
    · simp only [Listener.run, Preferences_eq]
      exact h1
    · simpa using h2
    · exact RegistryOnly.trans
        (show RegistryOnly w (w.emitAll (idWarning w.a)) from
          ⟨rfl, rfl, rfl, rfl, idWarning w.a, rfl, transitionSteps_idWarning _⟩) h3

theorem ChangeListeners_add (w : World) (p q : Store) (l : Listener) :
    ChangeListeners (AddChangeListener p l w) q =
      if q = p then ChangeListeners w p ++ [l] else ChangeListeners w q := by
  by_cases h : q = p
  · subst h; simp [ChangeListeners, AddChangeListener, mapGet_mapSet_self]
  · simp [ChangeListeners, AddChangeListener, mapGet_mapSet_ne _ _ h, h]

theorem ChangeListeners_congr (w w' : World) (h : w'.changeListeners = w.changeListeners)
    (q : Store) : ChangeListeners w' q = ChangeListeners w q := by
  simp [ChangeListeners, h]

theorem Migratable_congr (w w' : World) (hm : w'.m = w.m) (ha : w'.a = w.a)
    (h : Migratable w) : Migratable w' := by
  intro r hr
  rw [hm] at hr
  rw [hm, ha]
  exact h r hr

theorem Migratable_settled (w w' : World) (hm : w'.m = settled w.m w.a.prefs)
    (ha : w'.a = w.a) : Migratable w' := by
  intro r hr
  left
  rw [hm, settled_appPrefs] at hr
  rw [ha]
  exact (Option.some.inj hr).symm

theorem relisten_spec (fuel : Nat) (L : List Listener) :
    ∀ w : World, (Listener.prefsChanged ∈ L → Migratable w) →
      ∃ w', relisten (fuel + 2) L w = .ok () w' ∧
        w'.a = w.a ∧ w'.heap = w.heap ∧ w'.freshStore = w.freshStore ∧
        w'.m = (if Listener.prefsChanged ∈ L then settled w.m w.a.prefs else w.m) ∧
        (∀ q, ChangeListeners w' q =
          ChangeListeners w q ++ if q = w.a.prefs then L else []) ∧
        ∃ es, w'.trace = w.trace ++ es ∧
          transitionSteps es =
            L.flatMap fun l => [Event.addChangeListener w.a.prefs l, Event.call l] := by
  induction L with
  | nil =>
    intro w _
    exact ⟨w, rfl, rfl, rfl, rfl, by simp, by simp, [], by simp, rfl⟩
  | cons l rest ih =>
    intro w hm
    have hm0 : l = Listener.prefsChanged →
        Migratable (((AddChangeListener w.a.prefs l w).emit
          (Event.addChangeListener w.a.prefs l)).emit (Event.call l)) :=
      fun hl => Migratable_congr w _ rfl rfl (hm (by simp [hl]))
    obtain ⟨w1, hrun, hm1, ha1, hh1, hc1, hf1, es1, ht1, hs1⟩ :=
      run_listener fuel l _ hm0
    have hmr : Listener.prefsChanged ∈ rest → Migratable w1 := by
      intro hrest
      by_cases hl : l = Listener.prefsChanged
      · rw [if_pos hl] at hm1
        exact Migratable_settled _ w1 hm1 ha1
      · rw [if_neg hl] at hm1
        exact Migratable_congr w w1 hm1 ha1 (hm (List.mem_cons_of_mem _ hrest))
    obtain ⟨w2, hrel, ha2, hh2, hf2, hm2, hc2, es2, ht2, hs2⟩ := ih w1 hmr
    have ha1' : w1.a = w.a := ha1
    have hp1 : w1.a.prefs = w.a.prefs := by rw [ha1']
    refine ⟨w2, ?_, ha2.trans ha1', hh2.trans hh1, hf2.trans hf1, ?_, ?_,
      [Event.addChangeListener w.a.prefs l, Event.call l] ++ es1 ++ es2, ?_, ?_⟩
    · simp only [relisten]
      rw [hrun]
      exact hrel
    · rw [hm2, hp1]
      by_cases hl : l = Listener.prefsChanged
      · rw [if_pos hl] at hm1
        have hmem : Listener.prefsChanged ∈ l :: rest := by simp [hl]
        rw [if_pos hmem, hm1]
        show (if Listener.prefsChanged ∈ rest then
            settled (settled w.m w.a.prefs) w.a.prefs else settled w.m w.a.prefs) = _
        rw [settled_settled]
        simp
      · rw [if_neg hl] at hm1
        have hiff : Listener.prefsChanged ∈ l :: rest ↔ Listener.prefsChanged ∈ rest := by
          constructor
          · intro h
            rcases List.mem_cons.1 h with h | h
            · exact absurd h.symm hl
            · exact h
          · exact List.mem_cons_of_mem _
        rw [hm1]
        show (if Listener.prefsChanged ∈ rest then settled w.m w.a.prefs else w.m) = _
        by_cases hr : Listener.prefsChanged ∈ rest
        · rw [if_pos hr, if_pos (hiff.2 hr)]
        · rw [if_neg hr, if_neg (fun h => hr (hiff.1 h))]
    · intro q
      rw [hc2 q, hp1, ChangeListeners_congr _ w1 hc1 q]
      show ChangeListeners (AddChangeListener w.a.prefs l w) q ++ _ = _
      rw [ChangeListeners_add]
      by_cases hq : q = w.a.prefs
      · simp [hq]
      · simp [hq]
    · rw [ht2, ht1]
      simp [World.emit, AddChangeListener]
    · rw [transitionSteps_append, transitionSteps_append, hs1, hs2, hp1]
      simp [transitionSteps]

theorem transitionCloud_start (fuel : Nat) (w : World) (p : CloudProvider)
    (hok : p.setup = none) :
    ∃ w0 pre, w0.m = w.m ∧ w0.heap = w.heap ∧ w0.changeListeners = w.changeListeners ∧
      w0.a = { w.a with cloud := some p, prefs := newStore p w } ∧
      w0.trace = w.trace ++ pre ++ [Event.installPrefs (newStore p w)] ∧
      transitionSteps pre = [] ∧
      transitionCloud fuel p w =
        match relisten fuel (ChangeListeners w w.a.prefs) w0 with
        | .ok _ w => .ok () (w.emit Event.settingsApply)
        | .nilDeref w => .nilDeref w
        | .outOfFuel => .outOfFuel := by
  cases hc : p.cloudPreferences with
  | some s =>
    refine ⟨({ w with a := { w.a with cloud := some p, prefs := s } } : World).emit
      (Event.installPrefs s), [], rfl, rfl, rfl, ?_, ?_, rfl, ?_⟩
    · simp [World.emit, newStore, hc]
    · simp [World.emit, newStore, hc]
    · simp [transitionCloud, hok, hc, ChangeListeners]
  | none =>
    by_cases hid : w.a.uniqueID = ""
    · refine ⟨({ w with
          a := { w.a with cloud := some p, prefs := w.freshStore }
          freshStore := w.freshStore + 1 } : World).emit
        (Event.installPrefs w.freshStore), [], rfl, rfl, rfl, ?_, ?_, rfl, ?_⟩
      · simp [World.emit, newStore, hc]
      · simp [World.emit, newStore, hc]
      · simp [transitionCloud, hok, hc, ChangeListeners, newDefaultPreferences, hid, World.emit]
    · refine ⟨({ w with
          a := { w.a with cloud := some p, prefs := w.freshStore }
          freshStore := w.freshStore + 1
          trace := w.trace ++ [Event.loadPrefs w.freshStore] } : World).emit
        (Event.installPrefs w.freshStore), [Event.loadPrefs w.freshStore], rfl, rfl, rfl, ?_, ?_,
        rfl, ?_⟩
      · simp [World.emit, newStore, hc]
      · simp [World.emit, newStore, hc]
      · simp [transitionCloud, hok, hc, ChangeListeners, newDefaultPreferences, hid, World.emit]

theorem transitionCloud_spec (fuel : Nat) (w : World) (p : CloudProvider)
    (hok : p.setup = none)
    (hm : Listener.prefsChanged ∈ ChangeListeners w w.a.prefs →
      ∀ r, w.m.appPrefs = some r → r = newStore p w ∨ ∃ S, prefsAt w.m r = some S) :
    ∃ w', transitionCloud (fuel + 2) p w = .ok () w' ∧
      w'.a = { w.a with cloud := some p, prefs := newStore p w } ∧ w'.heap = w.heap ∧
      w'.m = (if Listener.prefsChanged ∈ ChangeListeners w w.a.prefs then
        settled w.m (newStore p w) else w.m) ∧
      (∀ q, ChangeListeners w' q = ChangeListeners w q ++
        if q = newStore p w then ChangeListeners w w.a.prefs else []) ∧
      ∃ es, w'.trace = w.trace ++ es ∧
        transitionSteps es = [Event.installPrefs (newStore p w)] ++
          ((ChangeListeners w w.a.prefs).flatMap fun l =>
            [Event.addChangeListener (newStore p w) l, Event.call l]) ++
          [Event.settingsApply] := by
  obtain ⟨w0, pre, h0m, h0h, h0c, h0a, h0t, h0s, heq⟩ := transitionCloud_start (fuel + 2) w p hok
  have hp0 : w0.a.prefs = newStore p w := by rw [h0a]
  have hmig : Listener.prefsChanged ∈ ChangeListeners w w.a.prefs → Migratable w0 := by
    intro hin r hr
    rw [h0m] at hr
    rw [h0m, hp0]
    exact hm hin r hr
  obtain ⟨w1, hrel, ha1, hh1, _, hm1, hc1, es, ht1, hs1⟩ :=
    relisten_spec fuel (ChangeListeners w w.a.prefs) w0 hmig
  rw [hrel] at heq
  refine ⟨_, heq, ?_, ?_, ?_, ?_, pre ++ [Event.installPrefs (newStore p w)] ++ es ++
    [Event.settingsApply], ?_, ?_⟩
  · show w1.a = _
    rw [ha1, h0a]
  · show w1.heap = _
    rw [hh1, h0h]
  · show w1.m = _
    rw [hm1, h0m, hp0]
  · intro q
    show ChangeListeners w1 q = _
    rw [hc1 q, ChangeListeners_congr w w0 h0c q, hp0]
  · show w1.trace ++ [Event.settingsApply] = _
    rw [ht1, h0t]
    simp
  · simp only [transitionSteps_append, h0s, hs1, hp0]
    rfl

theorem calls_transitionSteps (t : List Event) : calls (transitionSteps t) = calls t := by
  induction t with
  | nil => rfl
  | cons e rest ih =>
    cases e <;> simp_all [calls, transitionSteps, List.filter_cons]

theorem calls_relisten (n : Store) (L : List Listener) :
    calls (L.flatMap fun l => [Event.addChangeListener n l, Event.call l]) = L := by
  induction L with
  | nil => rfl
  | cons l rest ih =>
    simp only [List.flatMap_cons, calls, List.filterMap_append] at ih ⊢
    rw [ih]
    rfl

/-! ## Claims -/

/-- C1.  Migration event: when store `r` is remembered as the app store and has binding
set `S` in the table, and `n ≠ r` is the application's current store, `getBindings n`
returns `S`, leaves the table mapping `n` to `S` with no entry for `r` (other keys
untouched), remembers `n`, calls `replaceProvider(n)` once per held binding that supports
it and on nothing else, and calls `checkForChange` once per held binding, all of them
after the `replaceProvider` calls. -/
theorem getBindings_migration_event (fuel : Nat) (w : World) (r n : Store) (S : Addr)
    (hrem : w.m.appPrefs = some r) (hS : mapGet w.m.prefs r = some (some S))
    (hne : n ≠ r) (hcur : w.a.prefs = n) :
    ∃ w', getBindings (fuel + 2) n w = .ok (some S) w' ∧
      mapGet w'.m.prefs n = some (some S) ∧
      mapGet w'.m.prefs r = none ∧
      (∀ q, q ≠ n → q ≠ r → mapGet w'.m.prefs q = mapGet w.m.prefs q) ∧
      w'.m.appPrefs = some n ∧
      retargets (newEvents w w') = ((w.bindingsAt S).filter fun b => b.backed).map (fun b => (b, n)) ∧
      checks (newEvents w w') = w.bindingsAt S ∧
      (∀ b q, (retargets (newEvents w w')).count (b, q) =
        if q = n ∧ b.backed then (w.bindingsAt S).count b else 0) ∧
      ((w.bindingsAt S).Nodup → ∀ b,
        ((retargets (newEvents w w')).count (b, n) =
          if b ∈ w.bindingsAt S ∧ b.backed then 1 else 0) ∧
        (checks (newEvents w w')).count b = if b ∈ w.bindingsAt S then 1 else 0) ∧
      ∃ t1 t2, newEvents w w' = t1 ++ t2 ∧ checks t1 = [] ∧ retargets t2 = [] := by
  refine ⟨_, getBindings_migrate fuel w r n S hrem hS hne hcur, ?_⟩
  have hev := newEvents_append w _ _ (rfl : ({ w with
        m := { prefs := mapDelete (mapSet w.m.prefs n (some S)) r, appPrefs := some n }
        trace := w.trace ++ migrationEvents w r n S } : World).trace = _)
  rw [hev]
  have hret : retargets (migrationEvents w r n S) =
      ((w.bindingsAt S).filter fun b => b.backed).map (fun b => (b, n)) := by
    simp only [migrationEvents, retargetEvents, lookupEvents, retargets_append,
      retargets_idWarning, retargets_replace, retargets_check]
    simp [retargets]
  have hchk : checks (migrationEvents w r n S) = w.bindingsAt S := by
    simp only [migrationEvents, retargetEvents, lookupEvents, checks_append, checks_idWarning,
      checks_replace, checks_check]
    simp [checks]
  rw [hret, hchk]
  have hcount : ∀ b q, (((w.bindingsAt S).filter fun b => b.backed).map
      (fun b => (b, n))).count (b, q) =
        if q = n ∧ b.backed then (w.bindingsAt S).count b else 0 := by
    intro b q
    by_cases hq : q = n
    · subst hq
      simp [count_retarget_list]
    · have : (b, q) ∉ ((w.bindingsAt S).filter fun b => b.backed).map (fun b => (b, n)) := by
        intro hmem
        obtain ⟨c, _, hc⟩ := List.mem_map.1 hmem
        exact hq (Prod.mk.inj hc).2.symm
      simp [List.count_eq_zero_of_not_mem this, hq]
  refine ⟨?_, ?_, ?_, rfl, rfl, rfl, hcount, ?_, ?_⟩
  · simp [mapGet_mapDelete_ne _ hne, mapGet_mapSet_self]
  · simp [mapGet_mapDelete_self]
  · intro q hqn hqr
    simp [mapGet_mapDelete_ne _ hqr, mapGet_mapSet_ne _ _ hqn]
  · intro hnd b
    refine ⟨?_, ?_⟩
    · rw [hcount]
      by_cases hb : b ∈ w.bindingsAt S
      · by_cases hk : b.backed = true
        · simp [hb, hk, List.count_eq_one_of_mem hnd hb]
        · simp [hk]
      · simp [hb, List.count_eq_zero_of_not_mem hb]
    · by_cases hb : b ∈ w.bindingsAt S
      · simp [hb, List.count_eq_one_of_mem hnd hb]
      · simp [hb, List.count_eq_zero_of_not_mem hb]
  · refine ⟨retargetEvents w r n S, _, rfl, ?_, ?_⟩
    · simp only [retargetEvents, checks_append, checks_idWarning, checks_replace]
      simp [checks]
    · simp only [lookupEvents, retargets_append, retargets_idWarning, retargets_check]
      simp [retargets]

/-- Witness of C1 on `swappedWorld`: the lookup of store 2 migrates the set of store 1. -/
theorem getBindings_migration_event_witness :
    swappedWorld.m.appPrefs = some 1 ∧ mapGet swappedWorld.m.prefs 1 = some (some 0) ∧
    ∃ w', getBindings 2 2 swappedWorld = .ok (some 0) w' ∧
      mapGet w'.m.prefs 2 = some (some 0) ∧ mapGet w'.m.prefs 1 = none ∧
      w'.m.appPrefs = some 2 ∧
      retargets (newEvents swappedWorld w') = [({ id := 0, backed := true }, 2)] ∧
      checks (newEvents swappedWorld w') =
        [{ id := 0, backed := true }, { id := 1, backed := false }] :=
  ⟨rfl, rfl,
    let ⟨w', h1, h2, h3, _, h5, h6, h7, _⟩ :=
      getBindings_migration_event 0 swappedWorld 1 2 0 rfl rfl (by decide) rfl
    ⟨w', h1, h2, h3, h5, h6, h7⟩⟩

/-- C7.  Migration happens once: with an attached store `r` remembered and `n ≠ r`
current, the first `getBindings n` performs the three registry writes of the migration
and the second, run right after it, returns the same binding set, leaves the table and
the remembered reference as they were, and records only a read lock, the `Preferences()`
call and the unlock: no registry write, no `replaceProvider`, no `checkForChange`. -/
theorem getBindings_twice_migrates_once (fuel : Nat) (w : World) (r n : Store) (S : Addr)
    (hrem : w.m.appPrefs = some r) (hS : mapGet w.m.prefs r = some (some S))
    (hne : n ≠ r) (hcur : w.a.prefs = n) :
    ∃ w1 w2, getBindings (fuel + 2) n w = .ok (some S) w1 ∧
      getBindings (fuel + 2) n w1 = .ok (some S) w2 ∧
      w2.m.prefs = w1.m.prefs ∧ w2.m.appPrefs = w1.m.appPrefs ∧ w2.heap = w1.heap ∧
      registryWrites (newEvents w w1) =
        [Event.setPrefs n (some S), Event.deletePrefs r, Event.setAppPrefs n] ∧
      newEvents w1 w2 = lookupEvents w.a ∧
      registryWrites (newEvents w1 w2) = [] ∧
      retargets (newEvents w1 w2) = [] ∧
      checks (newEvents w1 w2) = [] := by
  have h1 := getBindings_migrate fuel w r n S hrem hS hne hcur
  have hrem1 : ({ w with
      m := { prefs := mapDelete (mapSet w.m.prefs n (some S)) r, appPrefs := some n }
      trace := w.trace ++ migrationEvents w r n S } : World).m.appPrefs = some n := rfl
  have h2 := getBindings_remembered (fuel + 1) _ n hrem1
  have hp : prefsAt ({ w with
      m := { prefs := mapDelete (mapSet w.m.prefs n (some S)) r, appPrefs := some n }
      trace := w.trace ++ migrationEvents w r n S } : World).m n = some S := by
    simp [prefsAt, mapGet_mapDelete_ne _ hne, mapGet_mapSet_self]
  rw [hp] at h2
  refine ⟨_, _, h1, h2, rfl, rfl, rfl, ?_, ?_, ?_, ?_, ?_⟩
  · rw [newEvents_append w _ (migrationEvents w r n S) rfl]
    have hw : registryWrites (idWarning w.a) = [] := by
      unfold idWarning; split <;> rfl
    have hrp : ∀ l : List preferenceItem,
        registryWrites (l.map fun b => Event.replaceProvider b n) = [] := by
      intro l; induction l with
      | nil => rfl
      | cons b rest ih => simp [registryWrites]
    have hck : ∀ l : List preferenceItem,
        registryWrites (l.map Event.checkForChange) = [] := by
      intro l; induction l with
      | nil => rfl
      | cons b rest ih => simp [registryWrites]
    have happ : ∀ s t, registryWrites (s ++ t) = registryWrites s ++ registryWrites t := by
      intro s t; simp [registryWrites]
    simp only [migrationEvents, retargetEvents, lookupEvents, happ, hw, hrp, hck]
    simp [registryWrites]
  · exact newEvents_append _ _ _ rfl
  · rw [newEvents_append _ _ (lookupEvents w.a) rfl]
    unfold lookupEvents idWarning; split <;> rfl
  · rw [newEvents_append _ _ (lookupEvents w.a) rfl]
    unfold lookupEvents idWarning; split <;> rfl
  · rw [newEvents_append _ _ (lookupEvents w.a) rfl]
    unfold lookupEvents idWarning; split <;> rfl

/-- Witness of C7 on `swappedWorld`. -/
theorem getBindings_twice_migrates_once_witness :
    swappedWorld.m.appPrefs = some 1 ∧ mapGet swappedWorld.m.prefs 1 = some (some 0) ∧
    ∃ w1 w2, getBindings 2 2 swappedWorld = .ok (some 0) w1 ∧
      getBindings 2 2 w1 = .ok (some 0) w2 ∧ w2.m.prefs = w1.m.prefs ∧
      registryWrites (newEvents w1 w2) = [] :=
  ⟨rfl, rfl,
    let ⟨w1, w2, h1, h2, h3, _, _, _, _, h8, _⟩ :=
      getBindings_twice_migrates_once 0 swappedWorld 1 2 0 rfl rfl (by decide) rfl
    ⟨w1, w2, h1, h2, h3, h8⟩⟩

/-- C4.  A failed `Setup` changes nothing but the diagnostics: `transitionCloud` returns,
the active provider, the current store, every listener list, the registry and the heap
are what they were, and the only event recorded is one `LogError` whose reason ends with
the provider's name. -/
theorem transitionCloud_setup_failure (fuel : Nat) (w : World) (p : CloudProvider)
    (err : String) (hfail : p.setup = some err) :
    ∃ w', transitionCloud fuel p w = .ok () w' ∧
      w'.a.cloud = w.a.cloud ∧ w'.a.prefs = w.a.prefs ∧ w'.a = w.a ∧
      w'.changeListeners = w.changeListeners ∧
      ChangeListeners w' w.a.prefs = ChangeListeners w w.a.prefs ∧
      w'.m = w.m ∧ w'.heap = w.heap ∧
      newEvents w w' =
        [Event.logError ("Failed to set up cloud provider " ++ p.name) (some err)] ∧
      diagnostics (newEvents w w') =
        [("Failed to set up cloud provider " ++ p.name, some err)] ∧
      calls (newEvents w w') = [] ∧
      Event.settingsApply ∉ newEvents w w' := by
  have hev : newEvents w
      (w.emit (Event.logError ("Failed to set up cloud provider " ++ p.name) (some err))) =
      [Event.logError ("Failed to set up cloud provider " ++ p.name) (some err)] :=
    newEvents_append _ _ _ rfl
  refine ⟨w.emit (Event.logError ("Failed to set up cloud provider " ++ p.name) (some err)),
    ?_, rfl, rfl, rfl, rfl, rfl, rfl, rfl, hev, ?_, ?_, ?_⟩
  · simp [transitionCloud, hfail]
  · rw [hev]; rfl
  · rw [hev]; rfl
  · rw [hev]; simp

/-- Witness of C4: provider "Q" fails on `swappedWorld`. -/
theorem transitionCloud_setup_failure_witness :
    failingProvider.setup = some "offline" ∧
    ∃ w', transitionCloud 0 failingProvider swappedWorld = .ok () w' ∧
      w'.a = swappedWorld.a ∧ w'.m = swappedWorld.m ∧
      diagnostics (newEvents swappedWorld w') =
        [("Failed to set up cloud provider Q", some "offline")] :=
  ⟨rfl,
    let ⟨w', h1, _, _, h4, _, _, h7, _, _, h10, _⟩ :=
      transitionCloud_setup_failure 0 swappedWorld failingProvider "offline" rfl
    ⟨w', h1, h4, h7, h10⟩⟩

/-- Counterexample to C2 as stated: store 1 of `swappedWorld` already has a binding set,
and two consecutive `ensurePreferencesAttached 1` register no listener at all, not one. -/
theorem ensurePreferencesAttached_twice_counterexample :
    ∃ w1 w2, ensurePreferencesAttached 1 swappedWorld = .ok 0 w1 ∧
      ensurePreferencesAttached 1 w1 = .ok 0 w2 ∧
      registrations (newEvents swappedWorld w2) = [] ∧
      ChangeListeners w2 1 = ChangeListeners swappedWorld 1 :=
  ⟨_, _, rfl, rfl, rfl, rfl⟩

/-- C2, amended.  For a store `p` that has a binding set `S` in the table,
`ensurePreferencesAttached p` returns `S`, leaves the registry, the heap and every
listener list unchanged and only takes and releases the read lock.  For any store, two
consecutive calls return the same binding set, the second one registers nothing, and
together they register the registry's listener on `p` once when `p` had no binding set
before the first call and not at all when it had one. -/
theorem ensurePreferencesAttached_idempotent (w : World) (p : Store) :
    (∀ S, mapGet w.m.prefs p = some (some S) →
      ∃ w', ensurePreferencesAttached p w = .ok S w' ∧
        w'.m = w.m ∧ w'.heap = w.heap ∧ w'.changeListeners = w.changeListeners ∧
        newEvents w w' = [Event.rLock, Event.rUnlock] ∧
        registrations (newEvents w w') = []) ∧
    ∃ S w1 w2, ensurePreferencesAttached p w = .ok S w1 ∧
      ensurePreferencesAttached p w1 = .ok S w2 ∧
      w2.m = w1.m ∧ w2.heap = w1.heap ∧
      registrations (newEvents w1 w2) = [] ∧
      registrations (newEvents w w2) =
        (if prefsAt w.m p = none then [(p, Listener.prefsChanged)] else []) ∧
      ChangeListeners w2 p = ChangeListeners w p ++
        (if prefsAt w.m p = none then [Listener.prefsChanged] else []) := by
  constructor
  · intro S hS
    have h := (prefsAt_eq_some w p S).2 hS
    exact ⟨_, ensure_attached w p S h, rfl, rfl, rfl, newEvents_append _ _ _ rfl,
      by rw [newEvents_append w _ [Event.rLock, Event.rUnlock] rfl]; rfl⟩
  · cases h : prefsAt w.m p with
    | some S =>
      have h1 := ensure_attached w p S h
      have h2 := ensure_attached (w.emitAll [Event.rLock, Event.rUnlock]) p S h
      refine ⟨S, _, _, h1, h2, rfl, rfl, ?_, ?_, ?_⟩
      · rw [newEvents_append _ _ [Event.rLock, Event.rUnlock] rfl]; rfl
      · rw [newEvents_append w _ ([Event.rLock, Event.rUnlock] ++ [Event.rLock, Event.rUnlock])
          (by simp [World.emitAll])]
        rfl
      · simp [ChangeListeners, World.emitAll]
    | none =>
      have h1 := ensure_fresh w p h
      have hp : prefsAt ({ w with
          m := { w.m with prefs := mapSet w.m.prefs p (some w.heap.length) }
          heap := w.heap ++ [[]]
          changeListeners :=
            mapSet w.changeListeners p (ChangeListeners w p ++ [Listener.prefsChanged])
          trace := w.trace ++ [Event.rLock, Event.rUnlock, Event.lock,
            Event.setPrefs p (some w.heap.length), Event.unlock,
            Event.addChangeListener p Listener.prefsChanged] } : World).m p =
          some w.heap.length := by
        simp [prefsAt, mapGet_mapSet_self]
      have h2 := ensure_attached _ p _ hp
      refine ⟨_, _, _, h1, h2, rfl, rfl, ?_, ?_, ?_⟩
      · rw [newEvents_append _ _ [Event.rLock, Event.rUnlock] rfl]; rfl
      · rw [newEvents_append w _ ([Event.rLock, Event.rUnlock, Event.lock,
            Event.setPrefs p (some w.heap.length), Event.unlock,
            Event.addChangeListener p Listener.prefsChanged] ++ [Event.rLock, Event.rUnlock])
          (by simp [World.emitAll])]
        rfl
      · simp [ChangeListeners, World.emitAll, mapGet_mapSet_self]

/-- Witness of C2 on `swappedWorld`, whose store 1 holds the binding set at address 0. -/
theorem ensurePreferencesAttached_idempotent_witness :
    mapGet swappedWorld.m.prefs 1 = some (some 0) ∧
    ∃ w', ensurePreferencesAttached 1 swappedWorld = .ok 0 w' ∧
      w'.m = swappedWorld.m ∧ w'.changeListeners = swappedWorld.changeListeners :=
  ⟨rfl,
    let ⟨w', h1, h2, _, h4, _⟩ := (ensurePreferencesAttached_idempotent swappedWorld 1).1 0 rfl
    ⟨w', h1, h2, h4⟩⟩

/-- Counterexample to C5 as stated: in `swappedWorld` store 2 is neither remembered nor
a key of the table, yet, being the current store while store 1 is remembered,
`getBindings 2` returns the binding set at address 0 and leaves an entry for store 2. -/
theorem getBindings_unattached_counterexample :
    swappedWorld.m.appPrefs ≠ some 2 ∧ mapGet swappedWorld.m.prefs 2 = none ∧
    ∃ w', getBindings 2 2 swappedWorld = .ok (some 0) w' ∧
      mapGet w'.m.prefs 2 = some (some 0) ∧ w'.m.prefs ≠ swappedWorld.m.prefs :=
  ⟨by decide, rfl, _, rfl, rfl, by decide⟩

/-- C5, amended.  A store `p` that is neither remembered nor a key of the table, and
that is not the current store while some store is remembered, is looked up without
bookkeeping: `getBindings p` returns nil, the table and the heap are exactly what they
were, there is still no entry for `p`, and the remembered reference is untouched unless
`p` is the current store and nothing was remembered, in which case `p` is remembered. -/
theorem getBindings_unattached (fuel : Nat) (w : World) (p : Store)
    (hrem : w.m.appPrefs ≠ some p) (hent : mapGet w.m.prefs p = none)
    (hplain : w.a.prefs ≠ p ∨ w.m.appPrefs = none) :
    ∃ w', getBindings (fuel + 1) p w = .ok none w' ∧
      w'.m.prefs = w.m.prefs ∧ mapGet w'.m.prefs p = none ∧ w'.heap = w.heap ∧
      ((w'.m.appPrefs = w.m.appPrefs ∧ w'.m.appPrefs ≠ some p) ∨
        (w.a.prefs = p ∧ w.m.appPrefs = none ∧ w'.m.appPrefs = some p)) := by
  have hnil : prefsAt w.m p = none := by simp [prefsAt, hent]
  by_cases hc : w.a.prefs = p
  · have hnone : w.m.appPrefs = none := by
      rcases hplain with h | h
      · exact absurd hc h
      · exact h
    have h := getBindings_first fuel w p hc hnone
    rw [hnil] at h
    exact ⟨_, h, rfl, hent, rfl, Or.inr ⟨hc, hnone, rfl⟩⟩
  · have h := getBindings_other fuel w p (fun e => hc e.symm)
    rw [hnil] at h
    exact ⟨_, h, rfl, hent, rfl, Or.inl ⟨rfl, hrem⟩⟩

/-- Witness of C5: store 5 is unknown to `swappedWorld` and is not its current store. -/
theorem getBindings_unattached_witness :
    swappedWorld.m.appPrefs ≠ some 5 ∧ mapGet swappedWorld.m.prefs 5 = none ∧
    ∃ w', getBindings 1 5 swappedWorld = .ok none w' ∧
      w'.m.prefs = swappedWorld.m.prefs :=
  ⟨by decide, rfl,
    let ⟨w', h1, h2, _⟩ :=
      getBindings_unattached 0 swappedWorld 5 (by decide) rfl (Or.inl (by decide))
    ⟨w', h1, h2⟩⟩

/-- C9, evaluated at the failing input.  From the empty registry: `getBindings 1` while
store 1 is current (store 1 is remembered, nothing is attached), the current store
becomes store 2, `getBindings 2`.  The second lookup migrates from the remembered store,
which has no binding set: it stores the nil pointer under store 2 and calls `list()` on
it, which dereferences nil.  This holds for every recursion budget that lets the calls
run. -/
theorem getBindings_nil_binding_set (fuel : Nat) :
    runCalls (fuel + 2) [Call.bindingsFor 1, Call.setCurrent 2, Call.bindingsFor 2] freshWorld =
      .nilDeref
        { m := { prefs := [(2, none)], appPrefs := some 2 }
          a := { uniqueID := "app", cloud := none, prefs := 2 }
          heap := []
          changeListeners := []
          freshStore := 2
          trace := [Event.rLock, Event.setAppPrefs 1, Event.rUnlock, Event.rLock,
            Event.setPrefs 2 none, Event.deletePrefs 1, Event.setAppPrefs 2] } := by
  simp [runCalls, Call.run, getBindings, fyneApp.Preferences, freshWorld, newPreferencesMap,
    World.emit, migratePreferencesWith, prefsAt, mapGet, mapSet, mapDelete,
    preferenceBindings.list]

/-- C10, evaluated on the code.  `ensurePreferencesAttached` keeps the discipline on
every input: its one table write is between `Lock` and `Unlock`.  `getBindings` does
not: on the empty registry it writes `m.appPrefs` between `RLock` and `RUnlock`, and on
`swappedWorld` the whole migration (the table insert, the delete and the write of
`m.appPrefs`) runs between `RLock` and `RUnlock`; the write lock is never taken. -/
theorem getBindings_writes_under_read_lock :
    (∀ (w : World) (p : Store), ∃ S w', ensurePreferencesAttached p w = .ok S w' ∧
      lockDiscipline 0 false (newEvents w w') = true) ∧
    (∃ w', getBindings 2 1 freshWorld = .ok none w' ∧
      newEvents freshWorld w' = [Event.rLock, Event.setAppPrefs 1, Event.rUnlock] ∧
      lockDiscipline 0 false (newEvents freshWorld w') = false) ∧
    (∃ w', getBindings 2 2 swappedWorld = .ok (some 0) w' ∧
      registryWrites (newEvents swappedWorld w') =
        [Event.setPrefs 2 (some 0), Event.deletePrefs 1, Event.setAppPrefs 2] ∧
      Event.lock ∉ newEvents swappedWorld w' ∧
      lockDiscipline 0 false (newEvents swappedWorld w') = false) := by
  refine ⟨?_, ⟨_, rfl, rfl, rfl⟩, ⟨_, rfl, rfl, by decide, rfl⟩⟩
  intro w p
  cases h : prefsAt w.m p with
  | some S =>
    refine ⟨S, _, ensure_attached w p S h, ?_⟩
    rw [newEvents_append w _ [Event.rLock, Event.rUnlock] rfl]
    rfl
  | none =>
    refine ⟨_, _, ensure_fresh w p h, ?_⟩
    rw [newEvents_append w _ [Event.rLock, Event.rUnlock, Event.lock,
      Event.setPrefs p (some w.heap.length), Event.unlock,
      Event.addChangeListener p Listener.prefsChanged] rfl]
    simp [lockDiscipline]

/-- Counterexample to C6 as stated: in `twoSetsWorld` the calls `ensureAttached(2)` and
then `bindingsFor(2)` return two different binding sets, the one at address 1 and then
the one at address 0 that the migration put in its place. -/
theorem same_binding_set_counterexample :
    ∃ w', runCalls 2 [Call.ensureAttached 2, Call.bindingsFor 2] twoSetsWorld =
      .ok [some 1, some 0] w' ∧ prefsAt w'.m 2 = some 0 :=
  ⟨_, rfl, rfl⟩

/-- C6, amended.  Over any sequence of `ensureAttached(p)` / `bindingsFor(p)` calls on
one store `p`, every call returns, and all binding sets returned are the same instance,
in each of these cases: no call migrates (`p` is not the current store, or no store other
than `p` is remembered); the sequence has no `bindingsFor(p)`; or the sequence starts
with `bindingsFor(p)` while the remembered store has a binding set (the migration then
comes before every other call). -/
theorem same_binding_set (fuel : Nat) (w : World) (p : Store) (cs : List Call)
    (hcs : ∀ c ∈ cs, c = Call.ensureAttached p ∨ c = Call.bindingsFor p)
    (hcase : (w.a.prefs ≠ p ∨ w.m.appPrefs = none ∨ w.m.appPrefs = some p) ∨
      (∀ c ∈ cs, c = Call.ensureAttached p) ∨
      ∃ r S rest, cs = Call.bindingsFor p :: rest ∧ w.m.appPrefs = some r ∧
        mapGet w.m.prefs r = some (some S)) :
    ∃ rets w', runCalls (fuel + 2) cs w = .ok rets w' ∧ rets.length = cs.length ∧
      ∀ S T, some S ∈ rets → some T ∈ rets → S = T := by
  by_cases hplain : w.a.prefs ≠ p ∨ w.m.appPrefs = none ∨ w.m.appPrefs = some p
  · obtain ⟨rets, w', h1, h2, _, h4⟩ := calls_agree (fuel + 1) p cs w hcs (Or.inl hplain)
    exact ⟨rets, w', h1, h2, h4⟩
  · rcases hcase with h | h | ⟨r, S, rest, hcons, hrem, hS⟩
    · exact absurd h hplain
    · obtain ⟨rets, w', h1, h2, _, h4⟩ := calls_agree (fuel + 1) p cs w hcs (Or.inr h)
      exact ⟨rets, w', h1, h2, h4⟩
    · have hcur : w.a.prefs = p := by
        by_contra hc; exact hplain (Or.inl hc)
      have hne : p ≠ r := by
        intro e; subst e; exact hplain (Or.inr (Or.inr hrem))
      subst hcons
      have hmig := getBindings_migrate fuel w r p S hrem hS hne hcur
      have hrest : ∀ c ∈ rest, c = Call.ensureAttached p ∨ c = Call.bindingsFor p :=
        fun d hd => hcs d (List.mem_cons_of_mem _ hd)
      obtain ⟨rets, w', h1, h2, h3, _⟩ := calls_agree (fuel + 1) p rest
        ({ w with
          m := { prefs := mapDelete (mapSet w.m.prefs p (some S)) r, appPrefs := some p }
          trace := w.trace ++ migrationEvents w r p S } : World) hrest
        (Or.inl (Or.inr (Or.inr rfl)))
      have hp : prefsAt ({ w with
          m := { prefs := mapDelete (mapSet w.m.prefs p (some S)) r, appPrefs := some p }
          trace := w.trace ++ migrationEvents w r p S } : World).m p = some S := by
        simp [prefsAt, mapGet_mapDelete_ne _ hne, mapGet_mapSet_self]
      refine ⟨some S :: rets, w', by simp [runCalls, Call.run, hmig, h1], by simp [h2], ?_⟩
      have hall : ∀ x ∈ some S :: rets, x = some S := by
        intro x hx
        rcases List.mem_cons.1 hx with hx | hx
        · exact hx
        · exact h3 S hp x hx
      intro A B hA hB
      have ha := Option.some.inj (hall _ hA)
      have hb := Option.some.inj (hall _ hB)
      rw [ha, hb]

/-- Witness of C6: three calls on store 1 of `swappedWorld`, which is not the current
store, all return the binding set at address 0. -/
theorem same_binding_set_witness :
    (∀ c ∈ [Call.bindingsFor 1, Call.ensureAttached 1, Call.bindingsFor 1],
      c = Call.ensureAttached 1 ∨ c = Call.bindingsFor 1) ∧
    swappedWorld.a.prefs ≠ 1 ∧
    ∃ rets w', runCalls 2 [Call.bindingsFor 1, Call.ensureAttached 1, Call.bindingsFor 1]
        swappedWorld = .ok rets w' ∧ rets.length = 3 ∧
      ∀ S T, some S ∈ rets → some T ∈ rets → S = T :=
  ⟨by decide, by decide,
    same_binding_set 0 swappedWorld 1 _ (by decide) (Or.inl (Or.inl (by decide)))⟩

/-- Counterexample to C3 as stated: in `sharedListenerWorld` the old store 1 has the
listener list `[user 7]`.  After a transition to a provider that supplies store 2, on
which that listener was registered already, it is registered twice on the new store;
so it is after a transition to a provider that supplies store 1 itself. -/
theorem transitionCloud_duplicates_counterexample :
    ChangeListeners sharedListenerWorld 1 = [Listener.user 7] ∧
    (∃ w', transitionCloud 2 cloudProvider sharedListenerWorld = .ok () w' ∧
      w'.a.prefs = 2 ∧ ChangeListeners w' 2 = [Listener.user 7, Listener.user 7] ∧
      (ChangeListeners w' 2).count (Listener.user 7) = 2) ∧
    ∃ w', transitionCloud 2 sameStoreProvider sharedListenerWorld = .ok () w' ∧
      w'.a.prefs = 1 ∧ ChangeListeners w' 1 = [Listener.user 7, Listener.user 7] ∧
      (ChangeListeners w' 1).count (Listener.user 7) = 2 :=
  ⟨rfl, ⟨_, rfl, rfl, rfl, rfl⟩, ⟨_, rfl, rfl, rfl, rfl⟩⟩

/-- C3, amended.  When `Setup` succeeds, and unless the registry's own listener is among
the listeners `L` of the old store while the registry remembers a store other than the
new one that has no binding set, `transitionCloud` returns with the provider active and
the new store current; the listener list of the new store is
what it was, followed by the listener list `L` of the old store, so each listener of `L`
is registered there, as many times more as it occurs in `L` (exactly as many times as in
`L` when it was not registered there before); the listener lists of the other stores are
unchanged; and the steps of the transition are: install the new store, then for each
listener of `L` in order its registration immediately followed by its call, then the
settings refresh, so the listeners called are those of `L`, once per occurrence. -/
theorem transitionCloud_carries_listeners (fuel : Nat) (w : World) (p : CloudProvider)
    (hok : p.setup = none)
    (hrem : Listener.prefsChanged ∈ ChangeListeners w w.a.prefs →
      ∀ r, w.m.appPrefs = some r →
        r = newStore p w ∨ ∃ S, mapGet w.m.prefs r = some (some S)) :
    ∃ w', transitionCloud (fuel + 2) p w = .ok () w' ∧
      w'.a.cloud = some p ∧ w'.a.prefs = newStore p w ∧
      ChangeListeners w' (newStore p w) =
        ChangeListeners w (newStore p w) ++ ChangeListeners w w.a.prefs ∧
      (∀ l ∈ ChangeListeners w w.a.prefs, l ∈ ChangeListeners w' (newStore p w)) ∧
      (∀ l, (ChangeListeners w' (newStore p w)).count l =
        (ChangeListeners w (newStore p w)).count l + (ChangeListeners w w.a.prefs).count l) ∧
      (∀ l, l ∉ ChangeListeners w (newStore p w) →
        (ChangeListeners w' (newStore p w)).count l = (ChangeListeners w w.a.prefs).count l) ∧
      (∀ q, q ≠ newStore p w → ChangeListeners w' q = ChangeListeners w q) ∧
      transitionSteps (newEvents w w') = [Event.installPrefs (newStore p w)] ++
        ((ChangeListeners w w.a.prefs).flatMap fun l =>
          [Event.addChangeListener (newStore p w) l, Event.call l]) ++
        [Event.settingsApply] ∧
      calls (newEvents w w') = ChangeListeners w w.a.prefs := by
  have hm : Listener.prefsChanged ∈ ChangeListeners w w.a.prefs →
      ∀ r, w.m.appPrefs = some r → r = newStore p w ∨ ∃ S, prefsAt w.m r = some S := by
    intro hin r hr
    rcases hrem hin r hr with h | ⟨S, hS⟩
    · exact Or.inl h
    · exact Or.inr ⟨S, (prefsAt_eq_some w r S).2 hS⟩
  obtain ⟨w', hrun, ha, _, _, hc, es, ht, hs⟩ := transitionCloud_spec fuel w p hok hm
  have hnew : ChangeListeners w' (newStore p w) =
      ChangeListeners w (newStore p w) ++ ChangeListeners w w.a.prefs := by
    rw [hc]; simp
  have hev : newEvents w w' = es := newEvents_append w w' es ht
  refine ⟨w', hrun, by rw [ha], by rw [ha], hnew, ?_, ?_, ?_, ?_, ?_, ?_⟩
  · intro l hl
    rw [hnew]
    exact List.mem_append_right _ hl
  · intro l
    rw [hnew, List.count_append]
  · intro l hl
    rw [hnew, List.count_append, List.count_eq_zero_of_not_mem hl, Nat.zero_add]
  · intro q hq
    rw [hc]; simp [hq]
  · rw [hev, hs]
  · rw [hev, ← calls_transitionSteps, hs]
    simp only [calls, List.filterMap_append]
    have := calls_relisten (newStore p w) (ChangeListeners w w.a.prefs)
    simp only [calls] at this
    rw [this]
    simp

/-- Witness of C3, twice.  In `attachedWorld` the registry's listener is among the
listeners of store 1 and the remembered store 1 has a binding set; in
`unattachedRememberedWorld` the remembered store 1 has none, and the only listener of
store 1 is the caller's.  In both the provider "P" installs store 2 and the listeners
of store 1 are carried over and called once each. -/
theorem transitionCloud_carries_listeners_witness :
    cloudProvider.setup = none ∧
    (mapGet attachedWorld.m.prefs 1 = some (some 0) ∧
      ∃ w', transitionCloud 2 cloudProvider attachedWorld = .ok () w' ∧
        w'.a.prefs = 2 ∧
        ChangeListeners w' 2 = [Listener.prefsChanged, Listener.user 7] ∧
        calls (newEvents attachedWorld w') = [Listener.prefsChanged, Listener.user 7]) ∧
    Listener.prefsChanged ∉ ChangeListeners unattachedRememberedWorld
      unattachedRememberedWorld.a.prefs ∧
    unattachedRememberedWorld.m.appPrefs = some 1 ∧
    mapGet unattachedRememberedWorld.m.prefs 1 = none ∧
    ∃ w', transitionCloud 2 cloudProvider unattachedRememberedWorld = .ok () w' ∧
      w'.a.prefs = 2 ∧
      ChangeListeners w' 2 = [Listener.user 7] ∧
      calls (newEvents unattachedRememberedWorld w') = [Listener.user 7] :=
  have hatt : Listener.prefsChanged ∈ ChangeListeners attachedWorld attachedWorld.a.prefs →
      ∀ r, attachedWorld.m.appPrefs = some r →
        r = newStore cloudProvider attachedWorld ∨
          ∃ S, mapGet attachedWorld.m.prefs r = some (some S) :=
    fun _ r hr => Or.inr ⟨0, by
      have : r = 1 := (Option.some.inj hr).symm
      subst this; rfl⟩
  have hno : Listener.prefsChanged ∉ ChangeListeners unattachedRememberedWorld
      unattachedRememberedWorld.a.prefs := by decide
  ⟨rfl,
    ⟨rfl,
      let ⟨w', h1, _, h3, h4, _, _, _, _, _, h10⟩ :=
        transitionCloud_carries_listeners 0 attachedWorld cloudProvider rfl hatt
      ⟨w', h1, h3, h4, h10⟩⟩,
    hno, rfl, rfl,
    let ⟨w', h1, _, h3, h4, _, _, _, _, _, h10⟩ :=
      transitionCloud_carries_listeners 0 unattachedRememberedWorld cloudProvider rfl
        (fun hin => absurd hin hno)
    ⟨w', h1, h3, h4, h10⟩⟩

/-- Counterexample to C8 as stated: `attachedOnlyWorld` is reached from `freshWorld` by
`ensurePreferencesAttached 1`, two `setItem` calls and the registration of listener 7,
with store 1 current.  After the transition to provider "P" (store 2) the listener is
registered on store 2 and was called once, but `getBindings 2` returns nil, and store 1
is still a key of the table with its binding set: nothing was remembered before the
swap, so the registry took store 2 as its first app store. -/
theorem store_swap_counterexample :
    (∃ w1 w2 w3, ensurePreferencesAttached 1 freshWorld = .ok 0 w1 ∧
      preferenceBindings.setItem (some 0) "x" { id := 0, backed := true } w1 = .ok () w2 ∧
      preferenceBindings.setItem (some 0) "y" { id := 1, backed := false } w2 = .ok () w3 ∧
      AddChangeListener 1 (Listener.user 7) w3 = attachedOnlyWorld) ∧
    ∃ w1 w2, transitionCloud 2 cloudProvider attachedOnlyWorld = .ok () w1 ∧
      w1.a.prefs = 2 ∧ Listener.user 7 ∈ ChangeListeners w1 2 ∧
      (calls (newEvents attachedOnlyWorld w1)).count (Listener.user 7) = 1 ∧
      getBindings 2 2 w1 = .ok none w2 ∧
      mapGet w2.m.prefs 1 = some (some 0) ∧ mapGet w2.m.prefs 2 = none :=
  ⟨⟨_, _, _, rfl, rfl, rfl, rfl⟩, ⟨_, _, rfl, rfl, by decide, by decide, rfl, rfl, rfl⟩⟩

/-- C8, amended.  Let store `A` be current and remembered by the registry, with binding
set `S` in the table holding bindings under "x" and "y", and let listener `L` be
registered on `A`.  A transition to a provider whose `Setup` succeeds and which supplies
a store `B ≠ A` returns with `B` current, `L` registered on `B` and called as many times
as it was registered on `A`; the next `getBindings B` returns `S`, which still holds the
same bindings under "x" and "y"; and then `B` is remembered and `A` is no key of the
table. -/
theorem bindings_follow_store_swap (fuel : Nat) (w : World) (p : CloudProvider)
    (A B : Store) (S : Addr) (L : Listener) (ix iy : preferenceItem)
    (hcur : w.a.prefs = A) (hrem : w.m.appPrefs = some A)
    (hS : mapGet w.m.prefs A = some (some S))
    (hx : mapGet (w.itemsAt S) "x" = some ix) (hy : mapGet (w.itemsAt S) "y" = some iy)
    (hL : L ∈ ChangeListeners w A)
    (hok : p.setup = none) (hB : p.cloudPreferences = some B) (hne : B ≠ A) :
    ∃ w1 w2, transitionCloud (fuel + 2) p w = .ok () w1 ∧
      w1.a.prefs = B ∧ L ∈ ChangeListeners w1 B ∧
      (calls (newEvents w w1)).count L = (ChangeListeners w A).count L ∧
      0 < (calls (newEvents w w1)).count L ∧
      getBindings (fuel + 2) B w1 = .ok (some S) w2 ∧
      mapGet (w2.itemsAt S) "x" = some ix ∧ mapGet (w2.itemsAt S) "y" = some iy ∧
      w2.m.appPrefs = some B ∧ w2.m.appPrefs ≠ some A ∧ mapGet w2.m.prefs A = none := by
  have hnew : newStore p w = B := by simp [newStore, hB]
  have hpS : prefsAt w.m A = some S := (prefsAt_eq_some w A S).2 hS
  have hm : Listener.prefsChanged ∈ ChangeListeners w w.a.prefs →
      ∀ r, w.m.appPrefs = some r → r = newStore p w ∨ ∃ T, prefsAt w.m r = some T := by
    intro _ r hr
    rw [hrem] at hr
    rw [← Option.some.inj hr]
    exact Or.inr ⟨S, hpS⟩
  obtain ⟨w1, hrun, ha, hh, hm1, hc, es, ht, hs⟩ := transitionCloud_spec fuel w p hok hm
  rw [hnew] at ha hm1 hc hs
  rw [hcur] at hm1 hc hs
  have hp1 : w1.a.prefs = B := by rw [ha]
  have hcalls : calls (newEvents w w1) = ChangeListeners w A := by
    rw [newEvents_append w w1 es ht, ← calls_transitionSteps, hs]
    simp only [calls, List.filterMap_append]
    have := calls_relisten B (ChangeListeners w A)
    simp only [calls] at this
    rw [this]
    simp
  have hLB : L ∈ ChangeListeners w1 B := by
    rw [hc]; simp [hL]
  have hBA : ¬ A = B := fun e => hne e.symm
  have hne2 : some B ≠ some A := fun e => hne (Option.some.inj e)
  have key : ∀ (w2 : World), getBindings (fuel + 2) B w1 = .ok (some S) w2 →
      w2.heap = w1.heap → w2.m.appPrefs = some B → mapGet w2.m.prefs A = none →
      ∃ w1 w2, transitionCloud (fuel + 2) p w = .ok () w1 ∧
        w1.a.prefs = B ∧ L ∈ ChangeListeners w1 B ∧
        (calls (newEvents w w1)).count L = (ChangeListeners w A).count L ∧
        0 < (calls (newEvents w w1)).count L ∧
        getBindings (fuel + 2) B w1 = .ok (some S) w2 ∧
        mapGet (w2.itemsAt S) "x" = some ix ∧ mapGet (w2.itemsAt S) "y" = some iy ∧
        w2.m.appPrefs = some B ∧ w2.m.appPrefs ≠ some A ∧ mapGet w2.m.prefs A = none := by
    intro w2 hget hheap happ hgone
    have hitems : w2.itemsAt S = w.itemsAt S := by
      simp [World.itemsAt, hheap, hh]
    refine ⟨w1, w2, hrun, hp1, hLB, by rw [hcalls], ?_, hget, by rw [hitems]; exact hx,
      by rw [hitems]; exact hy, happ, by rw [happ]; exact hne2, hgone⟩
    rw [hcalls]
    exact List.count_pos_iff.2 hL
  by_cases hin : Listener.prefsChanged ∈ ChangeListeners w A
  · rw [if_pos hin] at hm1
    have hset : settled w.m B =
        { prefs := mapDelete (mapSet w.m.prefs B (some S)) A, appPrefs := some B } := by
      simp [settled, hrem, hBA, hpS]
    rw [hset] at hm1
    have happ : w1.m.appPrefs = some B := by rw [hm1]
    have hget := getBindings_remembered (fuel + 1) w1 B happ
    have hval : prefsAt w1.m B = some S := by
      rw [hm1]
      simp [prefsAt, mapGet_mapDelete_ne _ hne, mapGet_mapSet_self]
    rw [hval] at hget
    refine key _ hget rfl happ ?_
    show mapGet w1.m.prefs A = none
    rw [hm1]
    exact mapGet_mapDelete_self _ _
  · rw [if_neg hin] at hm1
    have hrem1 : w1.m.appPrefs = some A := by rw [hm1]; exact hrem
    have hS1 : mapGet w1.m.prefs A = some (some S) := by rw [hm1]; exact hS
    have hget := getBindings_migrate fuel w1 A B S hrem1 hS1 hne hp1
    exact key _ hget rfl rfl (mapGet_mapDelete_self _ _)

/-- Witness of C8: `attachedWorld` and the provider "P", with the caller's listener 7. -/
theorem bindings_follow_store_swap_witness :
    attachedWorld.a.prefs = 1 ∧ attachedWorld.m.appPrefs = some 1 ∧
    mapGet attachedWorld.m.prefs 1 = some (some 0) ∧
    Listener.user 7 ∈ ChangeListeners attachedWorld 1 ∧
    ∃ w1 w2, transitionCloud 2 cloudProvider attachedWorld = .ok () w1 ∧
      Listener.user 7 ∈ ChangeListeners w1 2 ∧
      getBindings 2 2 w1 = .ok (some 0) w2 ∧
      mapGet (w2.itemsAt 0) "x" = some { id := 0, backed := true } ∧
      mapGet (w2.itemsAt 0) "y" = some { id := 1, backed := false } ∧
      mapGet w2.m.prefs 1 = none :=
  ⟨rfl, rfl, rfl, by decide,
    let ⟨w1, w2, h1, _, h3, _, _, h6, h7, h8, _, _, h11⟩ :=
      bindings_follow_store_swap 0 attachedWorld cloudProvider 1 2 0 (Listener.user 7)
        { id := 0, backed := true } { id := 1, backed := false }
        rfl rfl rfl rfl rfl (by decide) rfl rfl (by decide)
    ⟨w1, w2, h1, h3, h6, h7, h8, h11⟩⟩

end Fyne
